import Mathlib

/-!
Verification of the Raft replica state coordinator of yb/consensus
(header: src/yb/consensus/replica_state.h).

The embedding models the data and operations of the ReplicaState class.
The method bodies live in replica_state.cc, which is not part of the
source tree given here; those operations are therefore modelled from the
specification (and from the doc comments in the header itself), as noted
on each definition.  The LeaderStateCache struct is implemented inline in
the header and is embedded directly from that source.
-/

namespace YBConsensus

/-- Operation identifier: a pair of 64-bit integers (term, index), ordered
lexicographically, with sentinel minimum (0, 0).  Source:
replica_state.h uses yb::OpId; layout per spec section 3. -/
structure OpId where
  term : Int
  index : Int
deriving DecidableEq

/-- Lexicographic strict order on OpId (term first, then index). -/
def OpId.lt (a b : OpId) : Prop :=
  a.term < b.term ∨ (a.term = b.term ∧ a.index < b.index)

/-- Lexicographic order on OpId (term first, then index). -/
def OpId.le (a b : OpId) : Prop :=
  a.term < b.term ∨ (a.term = b.term ∧ a.index ≤ b.index)

instance : LT OpId := ⟨OpId.lt⟩

instance : LE OpId := ⟨OpId.le⟩

instance (a b : OpId) : Decidable (a < b) :=
  inferInstanceAs (Decidable (a.term < b.term ∨ (a.term = b.term ∧ a.index < b.index)))

instance (a b : OpId) : Decidable (a ≤ b) :=
  inferInstanceAs (Decidable (a.term < b.term ∨ (a.term = b.term ∧ a.index ≤ b.index)))

/-- The sentinel minimum OpId (0, 0). -/
def minimumOpId : OpId := ⟨0, 0⟩

theorem OpId.lt_iff (a b : OpId) :
    a < b ↔ (a.term < b.term ∨ (a.term = b.term ∧ a.index < b.index)) := Iff.rfl

theorem OpId.le_iff (a b : OpId) :
    a ≤ b ↔ (a.term < b.term ∨ (a.term = b.term ∧ a.index ≤ b.index)) := Iff.rfl

theorem OpId.le_refl (a : OpId) : a ≤ a := Or.inr ⟨rfl, Int.le_refl _⟩

theorem OpId.le_trans {a b c : OpId} (h1 : a ≤ b) (h2 : b ≤ c) : a ≤ c := by
  have g1 : a.term < b.term ∨ (a.term = b.term ∧ a.index ≤ b.index) := h1
  have g2 : b.term < c.term ∨ (b.term = c.term ∧ b.index ≤ c.index) := h2
  show a.term < c.term ∨ (a.term = c.term ∧ a.index ≤ c.index)
  omega

theorem OpId.le_total (a b : OpId) : a ≤ b ∨ b ≤ a := by
  show (a.term < b.term ∨ (a.term = b.term ∧ a.index ≤ b.index)) ∨
    (b.term < a.term ∨ (b.term = a.term ∧ b.index ≤ a.index))
  omega

theorem OpId.not_lt {a b : OpId} : ¬(a < b) ↔ b ≤ a := by
  show ¬(a.term < b.term ∨ (a.term = b.term ∧ a.index < b.index)) ↔
    (b.term < a.term ∨ (b.term = a.term ∧ b.index ≤ a.index))
  omega

theorem OpId.lt_irrefl (a : OpId) : ¬(a < a) := by
  show ¬(a.term < a.term ∨ (a.term = a.term ∧ a.index < a.index))
  omega

/-- Lifecycle states of a replica (source: enum ReplicaState::State). -/
inductive RState where
  | kInitialized
  | kRunning
  | kShuttingDown
  | kShutDown
deriving DecidableEq

/-- Raft roles (source: RaftPeerPB::Role, referenced by replica_state.h). -/
inductive RaftRole where
  | FOLLOWER
  | CANDIDATE
  | LEADER
  | LEARNER
  | NON_PARTICIPANT
deriving DecidableEq

/-- Error kinds surfaced by the coordinator entry points (spec section 7). -/
inductive RaftError where
  | illegalState
  | invalidArgument
deriving DecidableEq

/-- A lease expiration record: none when no old-leader lease is known (or it
was reset after being observed expired), otherwise the expiration time. -/
def LeaseExp := Option Int

/-- Order on lease expirations: "none" acts as the minimum. -/
def leaseLE (a b : Option Int) : Prop :=
  match a, b with
  | none, _ => True
  | some _, none => False
  | some x, some y => x ≤ y

instance (a b : Option Int) : Decidable (leaseLE a b) := by
  unfold leaseLE
  exact match a, b with
  | none, _ => inferInstanceAs (Decidable True)
  | some _, none => inferInstanceAs (Decidable False)
  | some x, some y => inferInstanceAs (Decidable (x ≤ y))

theorem leaseLE_refl (a : Option Int) : leaseLE a a := by
  cases a <;> simp [leaseLE]

/-- Modelled from the spec: a follower or candidate advances an old-leader
lease record by taking the max of the current record and the projected
expiration (spec section 4.4). -/
def leaseMax (cur : Option Int) (projected : Int) : Option Int :=
  match cur with
  | none => some projected
  | some e => some (max e projected)

theorem leaseLE_leaseMax (cur : Option Int) (p : Int) : leaseLE cur (leaseMax cur p) := by
  cases cur <;> simp [leaseLE, leaseMax]

/-- Modelled from the spec: the one-way reset of an old-leader lease record
to "none" once it is observed to have passed (spec sections 3 and 4.4;
the mutable reset described on the old_leader_lease_ member of
replica_state.h). -/
def leaseResetIfExpired (cur : Option Int) (now : Int) : Option Int :=
  match cur with
  | none => none
  | some e => if e ≤ now then none else some e

/-- The lease at this record is expired as of time now. -/
def leaseExpiredAt (cur : Option Int) (now : Int) : Prop :=
  ∃ e, cur = some e ∧ e ≤ now

/-- Maximum of a list of OpIds in lexicographic order, none for the empty
list.  Used to express "the greatest OpId in the pending queue such
that ..." from the spec. -/
def maxOpId : List OpId → Option OpId
  | [] => none
  | o :: os =>
    match maxOpId os with
    | none => some o
    | some m => some (if m ≤ o then o else m)

theorem maxOpId_eq_none_iff (l : List OpId) : maxOpId l = none ↔ l = [] := by
  cases l with
  | nil => simp [maxOpId]
  | cons o os =>
    simp only [maxOpId]
    cases maxOpId os <;> simp

theorem maxOpId_mem {l : List OpId} {m : OpId} (h : maxOpId l = some m) : m ∈ l := by
  induction l generalizing m with
  | nil => simp [maxOpId] at h
  | cons o os ih =>
    simp only [maxOpId] at h
    cases hrec : maxOpId os with
    | none =>
      rw [hrec] at h
      simp only [Option.some.injEq] at h
      subst h
      exact List.mem_cons_self _ _
    | some m0 =>
      rw [hrec] at h
      simp only [Option.some.injEq] at h
      subst h
      by_cases hle : m0 ≤ o
      · simp only [if_pos hle]
        exact List.mem_cons_self _ _
      · simp only [if_neg hle]
        exact List.mem_cons_of_mem _ (ih hrec)

theorem maxOpId_is_ub {l : List OpId} {m : OpId} (h : maxOpId l = some m) :
    ∀ o ∈ l, o ≤ m := by
  induction l generalizing m with
  | nil => simp [maxOpId] at h
  | cons o os ih =>
    intro x hx
    simp only [maxOpId] at h
    cases hrec : maxOpId os with
    | none =>
      rw [hrec] at h
      simp only [Option.some.injEq] at h
      subst h
      rcases List.mem_cons.1 hx with rfl | hx
      · exact OpId.le_refl _
      · rw [(maxOpId_eq_none_iff os).1 hrec] at hx
        simp at hx
    | some m0 =>
      rw [hrec] at h
      simp only [Option.some.injEq] at h
      subst h
      rcases List.mem_cons.1 hx with rfl | hx
      · by_cases hle : m0 ≤ x
        · simp only [if_pos hle]
          exact OpId.le_refl _
        · simp only [if_neg hle]
          rcases OpId.le_total x m0 with h1 | h1
          · exact h1
          · exact absurd h1 hle
      · have hxm := ih hrec x hx
        by_cases hle : m0 ≤ o
        · simp only [if_pos hle]
          exact OpId.le_trans hxm hle
        · simp only [if_neg hle]
          exact hxm

/-- The replica state coordinator (class ReplicaState of replica_state.h),
restricted to the fields the verified operations touch.  Lease
expirations are Option Int (none meaning no known lease); flushed is
the history of (term, voted_for) records persisted to the consensus
metadata store, most recent last. -/
structure ReplicaState where
  current_term : Int
  voted_for : Option String
  leader_uuid : String
  last_received_op_id : OpId
  last_received_op_id_current_leader : OpId
  last_committed_op_id : OpId
  pending_operations : List OpId
  state : RState
  active_role : RaftRole
  old_leader_lease : Option Int
  old_leader_ht_lease : Option Int
  flushed : List (Int × Option String)
deriving DecidableEq

/-- Modelled from the spec: CheckOpInSequence (body in replica_state.cc, not
under src/).  Per the header doc comment it checks that current
correctly follows previous: the term is the same or higher and the
index is sequential; per spec section 8 a violation is InvalidArgument. -/
def CheckOpInSequence (previous current : OpId) : Option RaftError :=
  if current.term < previous.term then some RaftError.invalidArgument
  else if current.index ≠ previous.index + 1 then some RaftError.invalidArgument
  else none

/-- Modelled from the spec: AddPendingOperation (body in replica_state.cc,
not under src/).  Appends the operation to the pending queue after the
in-sequence check against last_received_op_id and, on acceptance,
updates last_received_op_id (spec section 4.1; the config-change and
retryable-request bookkeeping is outside this model).  Returns the
error, if any, together with the resulting state (unchanged on error). -/
def ReplicaState.AddPendingOperation (s : ReplicaState) (op : OpId) :
    Option RaftError × ReplicaState :=
  match CheckOpInSequence s.last_received_op_id op with
  | some e => (some e, s)
  | none =>
    (none, { s with pending_operations := s.pending_operations ++ [op],
                    last_received_op_id := op })

/-- Modelled from the spec: AbortOpsAfterUnlocked (body in replica_state.cc,
not under src/).  Aborts the pending operations with index strictly
greater than the argument, in descending index order (the returned list
is the abort-callback order); the OpId at the argument index becomes
the new last received id, or last_committed_op_id if everything pending
was aborted (spec section 4.1 and the header doc comment). -/
def ReplicaState.AbortOpsAfter (s : ReplicaState) (index : Int) :
    ReplicaState × List OpId :=
  let kept := s.pending_operations.filter (fun o => decide (o.index ≤ index))
  let aborted := (s.pending_operations.filter (fun o => decide (index < o.index))).reverse
  let newLastReceived : OpId :=
    match kept.getLast? with
    | some tail => ⟨tail.term, index⟩
    | none => s.last_committed_op_id
  ({ s with pending_operations := kept, last_received_op_id := newLastReceived }, aborted)

/-- Modelled from the spec: AdvanceCommittedOpIdUnlocked together with
ApplyPendingOperationsUnlocked (bodies in replica_state.cc, not under
src/).  Requires the new committed id to be at least
last_committed_op_id; removes the pending operations with index up to
the new committed index in queue (ascending) order, hands that list to
the apply pipeline (returned here as the OpId list), and updates
last_committed_op_id (spec section 4.1; the pending-election and
config-promotion side effects and the CouldStop batching hint are
outside this model). -/
def ReplicaState.AdvanceCommittedOpId (s : ReplicaState) (committed_op_id : OpId) :
    Option RaftError × ReplicaState × List OpId :=
  if committed_op_id < s.last_committed_op_id then (some RaftError.illegalState, s, [])
  else
    (none,
     { s with
        pending_operations :=
          s.pending_operations.filter (fun o => decide (committed_op_id.index < o.index)),
        last_committed_op_id := committed_op_id },
     s.pending_operations.filter (fun o => decide (o.index ≤ committed_op_id.index)))

/-- The pending operations that are candidates for the new committed OpId
under the commit-only-own-term rule: at most majority_replicated and of
the current term (spec section 4.1, UpdateMajorityReplicated). -/
def ReplicaState.commitCandidates (s : ReplicaState) (majority_replicated : OpId) :
    List OpId :=
  s.pending_operations.filter
    (fun o => decide (o ≤ majority_replicated) && decide (o.term = s.current_term))

/-- Modelled from the spec: the committed OpId chosen by
UpdateMajorityReplicatedUnlocked (body in replica_state.cc, not under
src/): the greatest OpId in the pending queue that is at most
majority_replicated and has term equal to current_term; if no such
entry exists the commit index is left unchanged (spec section 4.1). -/
def ReplicaState.chooseCommittedOpId (s : ReplicaState) (majority_replicated : OpId) :
    OpId :=
  (maxOpId (s.commitCandidates majority_replicated)).getD s.last_committed_op_id

/-- Modelled from the spec: UpdateMajorityReplicatedUnlocked (body in
replica_state.cc, not under src/): chooses the new committed OpId by
the commit-only-own-term rule and then advances the committed id
(spec section 4.1). -/
def ReplicaState.UpdateMajorityReplicated (s : ReplicaState) (majority_replicated : OpId) :
    Option RaftError × ReplicaState × List OpId :=
  s.AdvanceCommittedOpId (s.chooseCommittedOpId majority_replicated)

/-- Modelled from the spec: SetCurrentTermUnlocked (body in
replica_state.cc, not under src/).  Requires the new term to be
strictly greater than the current term; on success it sets the term,
clears voted_for, resets last_received_op_id_current_leader to the
minimum OpId, clears the leader uuid and persists the metadata; fails
with IllegalState otherwise, leaving the state unchanged (spec
sections 4.1 and 8, and the header doc comments on
SetCurrentTermUnlocked and last_received_op_id_current_leader_). -/
def ReplicaState.SetCurrentTerm (s : ReplicaState) (new_term : Int) :
    Option RaftError × ReplicaState :=
  if new_term ≤ s.current_term then (some RaftError.illegalState, s)
  else
    (none, { s with
              current_term := new_term,
              voted_for := none,
              last_received_op_id_current_leader := minimumOpId,
              leader_uuid := "",
              flushed := s.flushed ++ [(new_term, none)] })

/-- Modelled from the spec: SetVotedForCurrentTermUnlocked (body in
replica_state.cc, not under src/).  Requires no prior vote for the
current term (or the same uuid, in which case the call is idempotent);
a first vote is persisted to the consensus metadata before success is
returned (spec sections 4.1 and 8). -/
def ReplicaState.SetVotedForCurrentTerm (s : ReplicaState) (uuid : String) :
    Option RaftError × ReplicaState :=
  match s.voted_for with
  | none =>
    (none, { s with voted_for := some uuid,
                    flushed := s.flushed ++ [(s.current_term, some uuid)] })
  | some v => if v = uuid then (none, s) else (some RaftError.illegalState, s)

/-- Modelled from the spec: UpdateLastReceivedOpIdUnlocked (body in
replica_state.cc, not under src/).  Follower-side bookkeeping that
enforces monotonicity of the last received id and mirrors it into
last_received_op_id_current_leader (spec section 4.1). -/
def ReplicaState.UpdateLastReceivedOpId (s : ReplicaState) (op_id : OpId) : ReplicaState :=
  if s.last_received_op_id ≤ op_id then
    { s with last_received_op_id := op_id,
             last_received_op_id_current_leader := op_id }
  else s

/-- Modelled from the spec: UpdateOldLeaderLeaseExpirationOnNonLeaderUnlocked
(body in replica_state.cc, not under src/).  A follower or candidate
updates both old-leader lease expirations by taking the max of the
current record and the projected expiration now + remaining (spec
section 4.4). -/
def ReplicaState.UpdateOldLeaderLeaseExpirationOnNonLeader
    (s : ReplicaState) (now lease_remaining ht_lease_remaining : Int) : ReplicaState :=
  { s with
      old_leader_lease := leaseMax s.old_leader_lease (now + lease_remaining),
      old_leader_ht_lease := leaseMax s.old_leader_ht_lease (now + ht_lease_remaining) }

/-- Modelled from the spec: the one-way reset of old_leader_lease_ to none
after the lease is observed to have expired (the mutable reset on the
read path described on the old_leader_lease_ member of
replica_state.h; body in replica_state.cc, not under src/). -/
def ReplicaState.ObserveOldLeaderLeaseExpired (s : ReplicaState) (now : Int) : ReplicaState :=
  { s with old_leader_lease := leaseResetIfExpired s.old_leader_lease now }

/-- Modelled from the spec: the same one-way reset for
old_leader_ht_lease_ (body in replica_state.cc, not under src/). -/
def ReplicaState.ObserveOldLeaderHtLeaseExpired (s : ReplicaState) (now : Int) : ReplicaState :=
  { s with old_leader_ht_lease := leaseResetIfExpired s.old_leader_ht_lease now }

/-- Modelled from the spec: LockForShutdown (body in replica_state.cc, not
under src/).  Per the header doc comment it changes the role to
non-participant; per spec section 4.1 it transitions the lifecycle
state to ShuttingDown and is idempotent (a state already at or past
ShuttingDown is not moved back). -/
def ReplicaState.LockForShutdown (s : ReplicaState) : ReplicaState :=
  { s with
      active_role := RaftRole.NON_PARTICIPANT,
      state := if s.state = RState.kShuttingDown ∨ s.state = RState.kShutDown
               then s.state else RState.kShuttingDown }

/-- One mutating operation of the modelled coordinator; used to state
invariants quantified over every operation. -/
inductive Step where
  | setCurrentTerm (new_term : Int)
  | setVotedForCurrentTerm (uuid : String)
  | addPendingOperation (op : OpId)
  | abortOpsAfter (index : Int)
  | advanceCommittedOpId (committed_op_id : OpId)
  | updateMajorityReplicated (majority_replicated : OpId)
  | updateLastReceivedOpId (op_id : OpId)
  | updateOldLeaderLeaseOnNonLeader (now lease_remaining ht_lease_remaining : Int)
  | observeOldLeaderLeaseExpired (now : Int)
  | observeOldLeaderHtLeaseExpired (now : Int)
  | lockForShutdown
deriving DecidableEq

/-- The state reached by running one coordinator operation. -/
def applyStep (s : ReplicaState) : Step → ReplicaState
  | Step.setCurrentTerm t => (s.SetCurrentTerm t).2
  | Step.setVotedForCurrentTerm u => (s.SetVotedForCurrentTerm u).2
  | Step.addPendingOperation op => (s.AddPendingOperation op).2
  | Step.abortOpsAfter i => (s.AbortOpsAfter i).1
  | Step.advanceCommittedOpId c => (s.AdvanceCommittedOpId c).2.1
  | Step.updateMajorityReplicated m => (s.UpdateMajorityReplicated m).2.1
  | Step.updateLastReceivedOpId o => s.UpdateLastReceivedOpId o
  | Step.updateOldLeaderLeaseOnNonLeader now r hr =>
    s.UpdateOldLeaderLeaseExpirationOnNonLeader now r hr
  | Step.observeOldLeaderLeaseExpired now => s.ObserveOldLeaderLeaseExpired now
  | Step.observeOldLeaderHtLeaseExpired now => s.ObserveOldLeaderHtLeaseExpired now
  | Step.lockForShutdown => s.LockForShutdown

/-- The votes persisted for a given term, in persistence order. -/
def persistedVotesFor (t : Int) (s : ReplicaState) : List String :=
  s.flushed.filterMap (fun r => if r.1 = t then r.2 else none)

/-- Apply a vote request, keeping the prior state on failure. -/
def applyVote (s : ReplicaState) (u : String) : ReplicaState :=
  (s.SetVotedForCurrentTerm u).2

/-- Run a sequence of vote requests. -/
def runVotes (s : ReplicaState) : List String → ReplicaState
  | [] => s
  | u :: us => runVotes (applyVote s u) us

/-- Modelled from the spec: the LeaderStatus enum (defined in
yb/consensus/leader_lease.h, which is not under src/); the five values
are the statuses listed in spec section 4.4. -/
inductive LeaderStatus where
  | NoLeader
  | NotLeader
  | LeaderAndReady
  | LeaderButOldLeaderMayHaveLease
  | LeaderButOldLeaderLeaseNotYetExpired
deriving DecidableEq

/-- The numeric value of a LeaderStatus (the value static_cast would see). -/
def LeaderStatus.toNat : LeaderStatus → Nat
  | LeaderStatus.NoLeader => 0
  | LeaderStatus.NotLeader => 1
  | LeaderStatus.LeaderAndReady => 2
  | LeaderStatus.LeaderButOldLeaderMayHaveLease => 3
  | LeaderStatus.LeaderButOldLeaderLeaseNotYetExpired => 4

/-- Decode a numeric value back into a LeaderStatus, if it is one. -/
def LeaderStatus.fromCode : Nat → Option LeaderStatus
  | 0 => some LeaderStatus.NoLeader
  | 1 => some LeaderStatus.NotLeader
  | 2 => some LeaderStatus.LeaderAndReady
  | 3 => some LeaderStatus.LeaderButOldLeaderMayHaveLease
  | 4 => some LeaderStatus.LeaderButOldLeaderLeaseNotYetExpired
  | _ => none

/-- Number of statuses (source: kLeaderStatusMapSize, bounded by
2 ^ kStatusBits through the static_assert in replica_state.h). -/
def kLeaderStatusMapSize : Nat := 5

/-- Source: LeaderStateCache::kStatusBits. -/
def kStatusBits : Nat := 3

/-- Source: LeaderStateCache::kStatusMask = (1 << kStatusBits) - 1. -/
def kStatusMask : Nat := (1 <<< kStatusBits) - 1

theorem LeaderStatus.toNat_lt (st : LeaderStatus) : st.toNat < 2 ^ kStatusBits := by
  cases st <;> decide

theorem LeaderStatus.fromCode_toNat (st : LeaderStatus) : LeaderStatus.fromCode st.toNat = some st := by
  cases st <;> rfl

/-- The lock-free leader-state snapshot (source: struct LeaderStateCache in
replica_state.h): packed_status is the single 64-bit atomic word,
expire_at the validity deadline of the snapshot. -/
structure LeaderStateCache where
  packed_status : Nat
  expire_at : Int
deriving DecidableEq

/-- Source: LeaderStateCache::status() returns
static_cast(packed_status & kStatusMask); this is its numeric value. -/
def LeaderStateCache.status (c : LeaderStateCache) : Nat :=
  c.packed_status &&& kStatusMask

/-- Source: LeaderStateCache::extra_value() = packed_status >> kStatusBits. -/
def LeaderStateCache.extra_value (c : LeaderStateCache) : Nat :=
  c.packed_status >>> kStatusBits

/-- Source: LeaderStateCache::Set(status, extra_value, expire_at_): a full
write of the word, packed_status = status | (extra_value << kStatusBits)
in 64-bit arithmetic, together with the new deadline.  The previous
contents of the cache are not read. -/
def LeaderStateCache.Set (_c : LeaderStateCache) (status : LeaderStatus)
    (extra_value : Nat) (expire_at : Int) : LeaderStateCache :=
  { packed_status := (status.toNat ||| (extra_value <<< kStatusBits)) % 2 ^ 64,
    expire_at := expire_at }

theorem kStatusBits_eq : kStatusBits = 3 := rfl

theorem kStatusMask_eq : kStatusMask = 2 ^ 3 - 1 := by decide

theorem packedStatus_eq (st : LeaderStatus) (extra : Nat) (hextra : extra < 2 ^ 61) :
    (st.toNat ||| (extra <<< kStatusBits)) % 2 ^ 64 = 2 ^ 3 * extra + st.toNat := by
  have hst : st.toNat < 2 ^ 3 := LeaderStatus.toNat_lt st
  rw [kStatusBits_eq, Nat.shiftLeft_eq, Nat.lor_comm, Nat.mul_comm extra (2 ^ 3),
    ← Nat.mul_add_lt_is_or hst extra]
  have hlt : 2 ^ 3 * extra + st.toNat < 2 ^ 64 := by omega
  exact Nat.mod_eq_of_lt hlt

theorem advance_lastCommitted (s : ReplicaState) (c : OpId) :
    (s.AdvanceCommittedOpId c).2.1.last_committed_op_id =
      if c < s.last_committed_op_id then s.last_committed_op_id else c := by
  unfold ReplicaState.AdvanceCommittedOpId
  split <;> rfl

theorem leaseReset_cases (cur : Option Int) (now : Int) :
    leaseResetIfExpired cur now = cur ∨
      (leaseExpiredAt cur now ∧ leaseResetIfExpired cur now = none) := by
  cases cur with
  | none => exact Or.inl rfl
  | some e =>
    by_cases h : e ≤ now
    · exact Or.inr ⟨⟨e, rfl, h⟩, by simp [leaseResetIfExpired, h]⟩
    · exact Or.inl (by simp [leaseResetIfExpired, h])

theorem setVoted_of_none (s : ReplicaState) (u : String) (hv : s.voted_for = none) :
    s.SetVotedForCurrentTerm u =
      (none, { s with voted_for := some u,
                      flushed := s.flushed ++ [(s.current_term, some u)] }) := by
  unfold ReplicaState.SetVotedForCurrentTerm
  rw [hv]

theorem setVoted_of_same (s : ReplicaState) (u : String) (hv : s.voted_for = some u) :
    s.SetVotedForCurrentTerm u = (none, s) := by
  unfold ReplicaState.SetVotedForCurrentTerm
  simp [hv]

theorem setVoted_of_other (s : ReplicaState) (u w : String) (hv : s.voted_for = some w)
    (hne : w ≠ u) :
    s.SetVotedForCurrentTerm u = (some RaftError.illegalState, s) := by
  unfold ReplicaState.SetVotedForCurrentTerm
  simp [hv, hne]

theorem applyVote_current_term (s : ReplicaState) (u : String) :
    (applyVote s u).current_term = s.current_term := by
  unfold applyVote
  cases hv : s.voted_for with
  | none => rw [setVoted_of_none s u hv]
  | some w =>
    by_cases h : w = u
    · subst h
      rw [setVoted_of_same s w hv]
    · rw [setVoted_of_other s u w hv h]

theorem applyVote_inv (t : Int) (s : ReplicaState) (u : String)
    (hterm : s.current_term = t)
    (hinv : ∀ v ∈ persistedVotesFor t s, s.voted_for = some v) :
    ∀ v ∈ persistedVotesFor t (applyVote s u), (applyVote s u).voted_for = some v := by
  unfold applyVote
  cases hv : s.voted_for with
  | none =>
    subst hterm
    rw [setVoted_of_none s u hv]
    intro v hvmem
    unfold persistedVotesFor at hvmem
    simp only [List.filterMap_append, List.filterMap_cons, List.filterMap_nil,
      List.mem_append] at hvmem
    rcases hvmem with hvmem | hvmem
    · have hc := hinv v hvmem
      rw [hv] at hc
      cases hc
    · simp at hvmem
      rw [hvmem]
  | some w =>
    by_cases h : w = u
    · subst h
      rw [setVoted_of_same s w hv]
      exact hinv
    · rw [setVoted_of_other s u w hv h]
      exact hinv

theorem runVotes_inv (t : Int) (us : List String) (s : ReplicaState)
    (hterm : s.current_term = t)
    (hinv : ∀ v ∈ persistedVotesFor t s, s.voted_for = some v) :
    ∀ v ∈ persistedVotesFor t (runVotes s us), (runVotes s us).voted_for = some v := by
  induction us generalizing s with
  | nil => exact hinv
  | cons u us ih =>
    exact ih (applyVote s u)
      (by rw [applyVote_current_term]; exact hterm)
      (applyVote_inv t s u hterm hinv)

theorem abortOpsAfter_lastReceived (s : ReplicaState) (i : Int) :
    (s.AbortOpsAfter i).1.last_received_op_id =
      match (s.pending_operations.filter (fun o => decide (o.index ≤ i))).getLast? with
      | some tail => (⟨tail.term, i⟩ : OpId)
      | none => s.last_committed_op_id := rfl

/-- Sample replica used to witness the theorems: a term-2 leader with three
pending operations of its own term. -/
def sampleLeader : ReplicaState :=
  { current_term := 2, voted_for := none, leader_uuid := "self",
    last_received_op_id := ⟨2, 3⟩, last_received_op_id_current_leader := ⟨2, 3⟩,
    last_committed_op_id := ⟨1, 0⟩,
    pending_operations := [⟨2, 1⟩, ⟨2, 2⟩, ⟨2, 3⟩],
    state := RState.kRunning, active_role := RaftRole.LEADER,
    old_leader_lease := none, old_leader_ht_lease := none, flushed := [] }

/-- Sample replica used to witness the vote theorems: a term-7 follower
with no recorded vote and an empty persistence history. -/
def sampleVoter : ReplicaState :=
  { current_term := 7, voted_for := none, leader_uuid := "",
    last_received_op_id := ⟨1, 0⟩, last_received_op_id_current_leader := ⟨1, 0⟩,
    last_committed_op_id := ⟨1, 0⟩, pending_operations := [],
    state := RState.kRunning, active_role := RaftRole.FOLLOWER,
    old_leader_lease := none, old_leader_ht_lease := none, flushed := [] }

/-- Sample cache value for the round-trip witness. -/
def sampleCache : LeaderStateCache := ⟨0, 0⟩

/-- C5: SetCurrentTerm(new_term) fails whenever new_term is at most the
current term, leaving the state unchanged; whenever new_term exceeds the
current term it sets the term, clears voted_for, resets
last_received_op_id_current_leader to the minimum OpId, clears the
leader uuid and persists the metadata. -/
theorem setCurrentTerm_spec (s : ReplicaState) (t : Int) :
    (t ≤ s.current_term → s.SetCurrentTerm t = (some RaftError.illegalState, s)) ∧
    (s.current_term < t →
      (s.SetCurrentTerm t).1 = none ∧
      (s.SetCurrentTerm t).2.current_term = t ∧
      (s.SetCurrentTerm t).2.voted_for = none ∧
      (s.SetCurrentTerm t).2.last_received_op_id_current_leader = minimumOpId ∧
      (s.SetCurrentTerm t).2.leader_uuid = "" ∧
      (s.SetCurrentTerm t).2.flushed = s.flushed ++ [(t, none)]) := by
  unfold ReplicaState.SetCurrentTerm
  constructor
  · intro h
    rw [if_pos h]
  · intro h
    rw [if_neg (by omega)]
    exact ⟨rfl, rfl, rfl, rfl, rfl, rfl⟩

/-- C6: AddPendingOperation(op) succeeds exactly when op.index equals
last_received_op_id.index + 1 and op.term is at least
last_received_op_id.term; on success it appends op and advances
last_received_op_id; any other append fails with InvalidArgument and
leaves the queue and last_received_op_id unchanged. -/
theorem addPendingOperation_in_sequence (s : ReplicaState) (op : OpId) :
    ((s.AddPendingOperation op).1 = none ↔
      (op.index = s.last_received_op_id.index + 1 ∧ s.last_received_op_id.term ≤ op.term)) ∧
    ((s.AddPendingOperation op).1 = none →
      (s.AddPendingOperation op).2.pending_operations = s.pending_operations ++ [op] ∧
      (s.AddPendingOperation op).2.last_received_op_id = op) ∧
    ((s.AddPendingOperation op).1 ≠ none →
      (s.AddPendingOperation op).1 = some RaftError.invalidArgument ∧
      (s.AddPendingOperation op).2 = s) := by
  by_cases h1 : op.term < s.last_received_op_id.term
  · have hres : s.AddPendingOperation op = (some RaftError.invalidArgument, s) := by
      unfold ReplicaState.AddPendingOperation CheckOpInSequence
      rw [if_pos h1]
    rw [hres]
    refine ⟨?_, ?_, fun _ => ⟨rfl, rfl⟩⟩
    · simp only [Prod.fst]
      constructor
      · intro h; cases h
      · intro h; omega
    · intro h; cases h
  · by_cases h2 : op.index = s.last_received_op_id.index + 1
    · have hres : s.AddPendingOperation op =
          (none, { s with pending_operations := s.pending_operations ++ [op],
                          last_received_op_id := op }) := by
        unfold ReplicaState.AddPendingOperation CheckOpInSequence
        rw [if_neg h1, if_neg (fun hc => hc h2)]
      rw [hres]
      refine ⟨?_, fun _ => ⟨rfl, rfl⟩, ?_⟩
      · simp only [Prod.fst]
        constructor
        · intro _; exact ⟨h2, by omega⟩
        · intro _; trivial
      · intro h; exact absurd rfl h
    · have hres : s.AddPendingOperation op = (some RaftError.invalidArgument, s) := by
        unfold ReplicaState.AddPendingOperation CheckOpInSequence
        rw [if_neg h1, if_pos h2]
      rw [hres]
      refine ⟨?_, ?_, fun _ => ⟨rfl, rfl⟩⟩
      · simp only [Prod.fst]
        constructor
        · intro h; cases h
        · intro h; exact absurd h.1 h2
      · intro h; cases h

/-- C8: UpdateLastReceivedOpId keeps last_received_op_id monotonically
non-decreasing (within and across terms), mirroring accepted updates
into last_received_op_id_current_leader, and every term change resets
last_received_op_id_current_leader to the minimum OpId. -/
theorem updateLastReceived_monotone (s : ReplicaState) (op_id : OpId) (t : Int)
    (hterm : s.current_term < t) :
    s.last_received_op_id ≤ (s.UpdateLastReceivedOpId op_id).last_received_op_id ∧
    (s.last_received_op_id ≤ op_id →
      (s.UpdateLastReceivedOpId op_id).last_received_op_id = op_id ∧
      (s.UpdateLastReceivedOpId op_id).last_received_op_id_current_leader = op_id) ∧
    (s.SetCurrentTerm t).2.last_received_op_id_current_leader = minimumOpId := by
  unfold ReplicaState.UpdateLastReceivedOpId ReplicaState.SetCurrentTerm
  refine ⟨?_, ?_, ?_⟩
  · by_cases h : s.last_received_op_id ≤ op_id
    · rw [if_pos h]
      exact h
    · rw [if_neg h]
      exact OpId.le_refl _
  · intro h
    rw [if_pos h]
    exact ⟨rfl, rfl⟩
  · rw [if_neg (by omega)]

/-- Witness for updateLastReceived_monotone at a concrete input. -/
theorem updateLastReceived_monotone_witness :
    sampleVoter.current_term < 8 ∧
    (sampleVoter.SetCurrentTerm 8).2.last_received_op_id_current_leader = minimumOpId :=
  ⟨by decide, (updateLastReceived_monotone sampleVoter ⟨1, 1⟩ 8 (by decide)).2.2⟩

/-- C9: the leader state cache packs (status, extra) into one 64-bit word,
status in the low kStatusBits bits and extra above them; for every
LeaderStatus and every extra value below 2 ^ 61, Set followed by
status() and extra_value() round-trips, and Set writes the whole word
without consulting the previous cache contents. -/
theorem leaderStateCache_set_round_trip (c1 c2 : LeaderStateCache) (st : LeaderStatus)
    (extra : Nat) (t : Int) (hextra : extra < 2 ^ 61) :
    (c1.Set st extra t).status = st.toNat ∧
    LeaderStatus.fromCode ((c1.Set st extra t).status) = some st ∧
    (c1.Set st extra t).extra_value = extra ∧
    c1.Set st extra t = c2.Set st extra t := by
  have hst : st.toNat < 2 ^ 3 := LeaderStatus.toNat_lt st
  have hpack : (c1.Set st extra t).packed_status = 2 ^ 3 * extra + st.toNat :=
    packedStatus_eq st extra hextra
  have hstatus : (c1.Set st extra t).status = st.toNat := by
    unfold LeaderStateCache.status
    rw [hpack, kStatusMask_eq, Nat.and_pow_two_sub_one_eq_mod]
    omega
  refine ⟨hstatus, by rw [hstatus]; exact LeaderStatus.fromCode_toNat st, ?_, rfl⟩
  unfold LeaderStateCache.extra_value
  rw [hpack, kStatusBits_eq, Nat.shiftRight_eq_div_pow]
  omega

/-- Witness for leaderStateCache_set_round_trip at a concrete input. -/
theorem leaderStateCache_set_round_trip_witness :
    (5 : Nat) < 2 ^ 61 ∧
    (sampleCache.Set LeaderStatus.LeaderAndReady 5 0).status =
      LeaderStatus.LeaderAndReady.toNat ∧
    (sampleCache.Set LeaderStatus.LeaderAndReady 5 0).extra_value = 5 := by
  have h := leaderStateCache_set_round_trip sampleCache sampleCache
    LeaderStatus.LeaderAndReady 5 0 (by decide)
  exact ⟨by decide, h.1, h.2.2.1⟩

/-- C10: LockForShutdown changes the replica role to non-participant, in
addition to moving the lifecycle state to ShuttingDown (idempotently,
and a state already shut down stays shut down); after a successful
LockForShutdown the active role is NON_PARTICIPANT. -/
theorem lockForShutdown_sets_role_non_participant (s : ReplicaState) :
    s.LockForShutdown.active_role = RaftRole.NON_PARTICIPANT ∧
    (s.LockForShutdown.state = RState.kShuttingDown ∨
      (s.state = RState.kShutDown ∧ s.LockForShutdown.state = RState.kShutDown)) := by
  refine ⟨rfl, ?_⟩
  unfold ReplicaState.LockForShutdown
  by_cases h1 : s.state = RState.kShuttingDown
  · left
    simp [h1]
  · by_cases h2 : s.state = RState.kShutDown
    · right
      exact ⟨h2, by simp [h1, h2]⟩
    · left
      simp [h1, h2]

theorem setCurrentTerm_leases (s : ReplicaState) (t : Int) :
    (s.SetCurrentTerm t).2.old_leader_lease = s.old_leader_lease ∧
    (s.SetCurrentTerm t).2.old_leader_ht_lease = s.old_leader_ht_lease := by
  unfold ReplicaState.SetCurrentTerm
  split <;> exact ⟨rfl, rfl⟩

theorem setVoted_leases (s : ReplicaState) (u : String) :
    (s.SetVotedForCurrentTerm u).2.old_leader_lease = s.old_leader_lease ∧
    (s.SetVotedForCurrentTerm u).2.old_leader_ht_lease = s.old_leader_ht_lease := by
  cases hv : s.voted_for with
  | none => rw [setVoted_of_none s u hv]; exact ⟨rfl, rfl⟩
  | some w =>
    by_cases h : w = u
    · subst h
      rw [setVoted_of_same s w hv]
      exact ⟨rfl, rfl⟩
    · rw [setVoted_of_other s u w hv h]
      exact ⟨rfl, rfl⟩

theorem addPending_leases (s : ReplicaState) (op : OpId) :
    (s.AddPendingOperation op).2.old_leader_lease = s.old_leader_lease ∧
    (s.AddPendingOperation op).2.old_leader_ht_lease = s.old_leader_ht_lease := by
  unfold ReplicaState.AddPendingOperation
  cases CheckOpInSequence s.last_received_op_id op <;> exact ⟨rfl, rfl⟩

theorem advance_leases (s : ReplicaState) (c : OpId) :
    (s.AdvanceCommittedOpId c).2.1.old_leader_lease = s.old_leader_lease ∧
    (s.AdvanceCommittedOpId c).2.1.old_leader_ht_lease = s.old_leader_ht_lease := by
  unfold ReplicaState.AdvanceCommittedOpId
  split <;> exact ⟨rfl, rfl⟩

/-- C3: the old-leader lease expirations (coarse and hybrid-time) are never
decreased by any modelled coordinator operation; a non-leader update
takes the max of the current record and the projected expiration
now + remaining, and the only decrease is the one-way reset to none of
a lease that has been observed to be expired. -/
theorem oldLeaderLease_never_decreases (s : ReplicaState) (st : Step) :
    (leaseLE s.old_leader_lease (applyStep s st).old_leader_lease ∨
      ∃ now, st = Step.observeOldLeaderLeaseExpired now ∧
        leaseExpiredAt s.old_leader_lease now ∧
        (applyStep s st).old_leader_lease = none) ∧
    (leaseLE s.old_leader_ht_lease (applyStep s st).old_leader_ht_lease ∨
      ∃ now, st = Step.observeOldLeaderHtLeaseExpired now ∧
        leaseExpiredAt s.old_leader_ht_lease now ∧
        (applyStep s st).old_leader_ht_lease = none) ∧
    (∀ now r hr,
      (s.UpdateOldLeaderLeaseExpirationOnNonLeader now r hr).old_leader_lease =
        leaseMax s.old_leader_lease (now + r) ∧
      (s.UpdateOldLeaderLeaseExpirationOnNonLeader now r hr).old_leader_ht_lease =
        leaseMax s.old_leader_ht_lease (now + hr)) := by
  refine ⟨?_, ?_, fun now r hr => ⟨rfl, rfl⟩⟩
  · cases st with
    | setCurrentTerm t =>
      exact Or.inl (by simp only [applyStep]; rw [(setCurrentTerm_leases s t).1]; exact leaseLE_refl _)
    | setVotedForCurrentTerm u =>
      exact Or.inl (by simp only [applyStep]; rw [(setVoted_leases s u).1]; exact leaseLE_refl _)
    | addPendingOperation op =>
      exact Or.inl (by simp only [applyStep]; rw [(addPending_leases s op).1]; exact leaseLE_refl _)
    | abortOpsAfter i => exact Or.inl (leaseLE_refl _)
    | advanceCommittedOpId c =>
      exact Or.inl (by simp only [applyStep]; rw [(advance_leases s c).1]; exact leaseLE_refl _)
    | updateMajorityReplicated m =>
      exact Or.inl (by
        simp only [applyStep, ReplicaState.UpdateMajorityReplicated]
        rw [(advance_leases s (s.chooseCommittedOpId m)).1]
        exact leaseLE_refl _)
    | updateLastReceivedOpId o =>
      exact Or.inl (by
        simp only [applyStep]
        unfold ReplicaState.UpdateLastReceivedOpId
        split <;> exact leaseLE_refl _)
    | updateOldLeaderLeaseOnNonLeader now r hr => exact Or.inl (leaseLE_leaseMax _ _)
    | observeOldLeaderLeaseExpired now =>
      rcases leaseReset_cases s.old_leader_lease now with h | ⟨hexp, hnone⟩
      · exact Or.inl (by
          simp only [applyStep]
          show leaseLE s.old_leader_lease (leaseResetIfExpired s.old_leader_lease now)
          rw [h]
          exact leaseLE_refl _)
      · exact Or.inr ⟨now, rfl, hexp, hnone⟩
    | observeOldLeaderHtLeaseExpired now => exact Or.inl (leaseLE_refl _)
    | lockForShutdown => exact Or.inl (leaseLE_refl _)
  · cases st with
    | setCurrentTerm t =>
      exact Or.inl (by simp only [applyStep]; rw [(setCurrentTerm_leases s t).2]; exact leaseLE_refl _)
    | setVotedForCurrentTerm u =>
      exact Or.inl (by simp only [applyStep]; rw [(setVoted_leases s u).2]; exact leaseLE_refl _)
    | addPendingOperation op =>
      exact Or.inl (by simp only [applyStep]; rw [(addPending_leases s op).2]; exact leaseLE_refl _)
    | abortOpsAfter i => exact Or.inl (leaseLE_refl _)
    | advanceCommittedOpId c =>
      exact Or.inl (by simp only [applyStep]; rw [(advance_leases s c).2]; exact leaseLE_refl _)
    | updateMajorityReplicated m =>
      exact Or.inl (by
        simp only [applyStep, ReplicaState.UpdateMajorityReplicated]
        rw [(advance_leases s (s.chooseCommittedOpId m)).2]
        exact leaseLE_refl _)
    | updateLastReceivedOpId o =>
      exact Or.inl (by
        simp only [applyStep]
        unfold ReplicaState.UpdateLastReceivedOpId
        split <;> exact leaseLE_refl _)
    | updateOldLeaderLeaseOnNonLeader now r hr => exact Or.inl (leaseLE_leaseMax _ _)
    | observeOldLeaderLeaseExpired now => exact Or.inl (leaseLE_refl _)
    | observeOldLeaderHtLeaseExpired now =>
      rcases leaseReset_cases s.old_leader_ht_lease now with h | ⟨hexp, hnone⟩
      · exact Or.inl (by
          simp only [applyStep]
          show leaseLE s.old_leader_ht_lease (leaseResetIfExpired s.old_leader_ht_lease now)
          rw [h]
          exact leaseLE_refl _)
      · exact Or.inr ⟨now, rfl, hexp, hnone⟩
    | lockForShutdown => exact Or.inl (leaseLE_refl _)

/-- C4: SetVotedForCurrentTerm(uuid) succeeds exactly when there is no
recorded vote or the recorded vote is the same uuid (the repeat call
succeeding with identical state); a first vote is persisted before
success is returned; and across any sequence of vote requests at a
fixed term at most one distinct uuid is ever persisted. -/
theorem setVotedForCurrentTerm_spec (s : ReplicaState) (u : String) (us : List String)
    (hinv : ∀ v ∈ persistedVotesFor s.current_term s, s.voted_for = some v) :
    (((s.SetVotedForCurrentTerm u).1 = none) ↔
      (s.voted_for = none ∨ s.voted_for = some u)) ∧
    (s.voted_for = some u → s.SetVotedForCurrentTerm u = (none, s)) ∧
    (s.voted_for = none →
      (s.SetVotedForCurrentTerm u).2.flushed = s.flushed ++ [(s.current_term, some u)]) ∧
    (persistedVotesFor s.current_term (runVotes s us)).Pairwise (fun a b => a = b) := by
  refine ⟨?_, ?_, ?_, ?_⟩
  · constructor
    · intro h
      cases hv : s.voted_for with
      | none => exact Or.inl rfl
      | some w =>
        by_cases hw : w = u
        · subst hw
          exact Or.inr rfl
        · rw [setVoted_of_other s u w hv hw] at h
          cases h
    · intro h
      rcases h with h | h
      · rw [setVoted_of_none s u h]
      · rw [setVoted_of_same s u h]
  · intro h
    exact setVoted_of_same s u h
  · intro h
    rw [setVoted_of_none s u h]
  · have hall := runVotes_inv s.current_term us s rfl hinv
    apply List.pairwise_of_forall_mem_list
    intro a ha b hb
    have h1 := hall a ha
    have h2 := hall b hb
    rw [h1] at h2
    exact Option.some.inj h2

/-- Witness for setVotedForCurrentTerm_spec at a concrete input: an initial
voter with empty history, then votes X, X, Y. -/
theorem setVotedForCurrentTerm_spec_witness :
    (∀ v ∈ persistedVotesFor sampleVoter.current_term sampleVoter,
      sampleVoter.voted_for = some v) ∧
    (persistedVotesFor sampleVoter.current_term
      (runVotes sampleVoter ["X", "X", "Y"])).Pairwise (fun a b => a = b) :=
  ⟨by decide,
   (setVotedForCurrentTerm_spec sampleVoter "X" ["X", "X", "Y"] (by decide)).2.2.2⟩

/-- C1: on a leader, UpdateMajorityReplicated chooses as the new committed
OpId the greatest OpId in the pending queue that is at most the
majority_replicated argument and has term equal to current_term; if no
pending entry satisfies both, the commit index is left unchanged, so
the commit index never advances through an entry of a different term. -/
theorem updateMajorityReplicated_commit_own_term (s : ReplicaState) (mr : OpId)
    (_hrole : s.active_role = RaftRole.LEADER) :
    (s.commitCandidates mr = [] →
      s.chooseCommittedOpId mr = s.last_committed_op_id ∧
      (s.UpdateMajorityReplicated mr).2.1.last_committed_op_id = s.last_committed_op_id) ∧
    (s.commitCandidates mr ≠ [] →
      s.chooseCommittedOpId mr ∈ s.pending_operations ∧
      s.chooseCommittedOpId mr ≤ mr ∧
      (s.chooseCommittedOpId mr).term = s.current_term ∧
      ∀ o ∈ s.pending_operations, o ≤ mr → o.term = s.current_term →
        o ≤ s.chooseCommittedOpId mr) ∧
    ((s.UpdateMajorityReplicated mr).2.1.last_committed_op_id ≠ s.last_committed_op_id →
      (s.UpdateMajorityReplicated mr).2.1.last_committed_op_id.term = s.current_term) := by
  refine ⟨?_, ?_, ?_⟩
  · intro hempty
    have hchoose : s.chooseCommittedOpId mr = s.last_committed_op_id := by
      unfold ReplicaState.chooseCommittedOpId
      rw [hempty]
      rfl
    refine ⟨hchoose, ?_⟩
    unfold ReplicaState.UpdateMajorityReplicated
    rw [hchoose, advance_lastCommitted, if_neg (OpId.lt_irrefl _)]
  · intro hne
    cases hmax : maxOpId (s.commitCandidates mr) with
    | none => exact absurd ((maxOpId_eq_none_iff _).1 hmax) hne
    | some m =>
      have hchoose : s.chooseCommittedOpId mr = m := by
        unfold ReplicaState.chooseCommittedOpId
        rw [hmax]
        rfl
      have hmem := maxOpId_mem hmax
      unfold ReplicaState.commitCandidates at hmem
      rw [List.mem_filter] at hmem
      have hprops : m ≤ mr ∧ m.term = s.current_term := by
        have h2 := hmem.2
        simp at h2
        exact h2
      rw [hchoose]
      refine ⟨hmem.1, hprops.1, hprops.2, ?_⟩
      intro o ho hole hoterm
      apply maxOpId_is_ub hmax
      unfold ReplicaState.commitCandidates
      rw [List.mem_filter]
      simp [ho, hole, hoterm]
  · intro hchanged
    by_cases hempty : s.commitCandidates mr = []
    · have hchoose : s.chooseCommittedOpId mr = s.last_committed_op_id := by
        unfold ReplicaState.chooseCommittedOpId
        rw [hempty]
        rfl
      unfold ReplicaState.UpdateMajorityReplicated at hchanged
      rw [hchoose, advance_lastCommitted, if_neg (OpId.lt_irrefl _)] at hchanged
      exact absurd rfl hchanged
    · cases hmax : maxOpId (s.commitCandidates mr) with
      | none => exact absurd ((maxOpId_eq_none_iff _).1 hmax) hempty
      | some m =>
        have hchoose : s.chooseCommittedOpId mr = m := by
          unfold ReplicaState.chooseCommittedOpId
          rw [hmax]
          rfl
        have hterm : m.term = s.current_term := by
          have hmem := maxOpId_mem hmax
          unfold ReplicaState.commitCandidates at hmem
          rw [List.mem_filter] at hmem
          have h2 := hmem.2
          simp at h2
          exact h2.2
        unfold ReplicaState.UpdateMajorityReplicated at hchanged ⊢
        rw [hchoose, advance_lastCommitted] at hchanged ⊢
        by_cases hlt : m < s.last_committed_op_id
        · rw [if_pos hlt] at hchanged
          exact absurd rfl hchanged
        · rw [if_neg hlt]
          exact hterm

/-- Witness for updateMajorityReplicated_commit_own_term at a concrete
input: the sample leader commits (2,3) and the new committed term is
its own. -/
theorem updateMajorityReplicated_commit_own_term_witness :
    sampleLeader.active_role = RaftRole.LEADER ∧
    (sampleLeader.UpdateMajorityReplicated ⟨2, 3⟩).2.1.last_committed_op_id.term =
      sampleLeader.current_term :=
  ⟨rfl,
   (updateMajorityReplicated_commit_own_term sampleLeader ⟨2, 3⟩ rfl).2.2 (by decide)⟩

/-- C2: AdvanceCommittedOpId with a new committed id at least the current
one succeeds, removes from the pending queue exactly the operations
with index at most the new committed index (in queue order), hands the
apply pipeline that list in strictly ascending OpId order, sets
last_committed_op_id to the new id, and last_committed_op_id never
decreases on any invocation. -/
theorem advanceCommittedOpId_spec (s : ReplicaState) (nc : OpId)
    (hsorted : s.pending_operations.Pairwise (fun a b => a.index < b.index ∧ a.term ≤ b.term))
    (hle : s.last_committed_op_id ≤ nc) :
    (s.AdvanceCommittedOpId nc).1 = none ∧
    (s.AdvanceCommittedOpId nc).2.2 =
      s.pending_operations.filter (fun o => decide (o.index ≤ nc.index)) ∧
    (s.AdvanceCommittedOpId nc).2.2.Pairwise (fun a b => a < b) ∧
    (s.AdvanceCommittedOpId nc).2.1.pending_operations =
      s.pending_operations.filter (fun o => decide (nc.index < o.index)) ∧
    (s.AdvanceCommittedOpId nc).2.1.last_committed_op_id = nc ∧
    (∀ m : OpId, s.last_committed_op_id ≤ (s.AdvanceCommittedOpId m).2.1.last_committed_op_id) := by
  have hnlt : ¬(nc < s.last_committed_op_id) := OpId.not_lt.2 hle
  have hres : s.AdvanceCommittedOpId nc =
      (none,
       { s with
          pending_operations :=
            s.pending_operations.filter (fun o => decide (nc.index < o.index)),
          last_committed_op_id := nc },
       s.pending_operations.filter (fun o => decide (o.index ≤ nc.index))) := by
    unfold ReplicaState.AdvanceCommittedOpId
    rw [if_neg hnlt]
  rw [hres]
  refine ⟨rfl, rfl, ?_, rfl, rfl, ?_⟩
  · exact (hsorted.imp (fun h => (OpId.lt_iff _ _).2 (by omega))).filter _
  · intro m
    rw [advance_lastCommitted]
    by_cases hm : m < s.last_committed_op_id
    · rw [if_pos hm]
      exact OpId.le_refl _
    · rw [if_neg hm]
      exact OpId.not_lt.1 hm

/-- Witness for advanceCommittedOpId_spec at a concrete input. -/
theorem advanceCommittedOpId_spec_witness :
    sampleLeader.pending_operations.Pairwise
      (fun a b => a.index < b.index ∧ a.term ≤ b.term) ∧
    sampleLeader.last_committed_op_id ≤ (⟨2, 3⟩ : OpId) ∧
    (sampleLeader.AdvanceCommittedOpId ⟨2, 3⟩).2.1.last_committed_op_id = ⟨2, 3⟩ ∧
    (sampleLeader.AdvanceCommittedOpId ⟨2, 3⟩).2.2.Pairwise (fun a b => a < b) := by
  have h := advanceCommittedOpId_spec sampleLeader ⟨2, 3⟩ (by decide) (by decide)
  exact ⟨by decide, by decide, h.2.2.2.2.1, h.2.2.1⟩

/-- C7: AbortOpsAfter(index) aborts exactly the pending operations with
index strictly above the argument, firing their callbacks in strictly
descending index order (the reverse of append order), keeps the rest,
and afterwards last_received_op_id is (term of the kept tail, index),
or last_committed_op_id if everything pending was aborted. -/
theorem abortOpsAfter_spec (s : ReplicaState) (i : Int)
    (hsorted : s.pending_operations.Pairwise (fun a b => a.index < b.index)) :
    (∀ o : OpId, o ∈ (s.AbortOpsAfter i).2 ↔ o ∈ s.pending_operations ∧ i < o.index) ∧
    (s.AbortOpsAfter i).2.Pairwise (fun a b => b.index < a.index) ∧
    (s.AbortOpsAfter i).1.pending_operations =
      s.pending_operations.filter (fun o => decide (o.index ≤ i)) ∧
    (s.pending_operations.filter (fun o => decide (o.index ≤ i)) ≠ [] →
      ∃ tail, (s.pending_operations.filter (fun o => decide (o.index ≤ i))).getLast? =
          some tail ∧
        (s.AbortOpsAfter i).1.last_received_op_id = ⟨tail.term, i⟩) ∧
    (s.pending_operations.filter (fun o => decide (o.index ≤ i)) = [] →
      (s.AbortOpsAfter i).1.last_received_op_id = s.last_committed_op_id) := by
  have habort : (s.AbortOpsAfter i).2 =
      (s.pending_operations.filter (fun o => decide (i < o.index))).reverse := rfl
  refine ⟨?_, ?_, rfl, ?_, ?_⟩
  · intro o
    rw [habort, List.mem_reverse, List.mem_filter]
    simp
  · rw [habort]
    exact List.pairwise_reverse.2 (hsorted.filter _)
  · intro hne
    cases hl : (s.pending_operations.filter (fun o => decide (o.index ≤ i))).getLast? with
    | none => exact absurd (List.getLast?_eq_none_iff.1 hl) hne
    | some tail =>
      refine ⟨tail, rfl, ?_⟩
      rw [abortOpsAfter_lastReceived, hl]
  · intro hempty
    rw [abortOpsAfter_lastReceived, hempty]
    rfl

/-- Witness for abortOpsAfter_spec at a concrete input: aborting after
index 1 on the sample leader fires callbacks in descending order. -/
theorem abortOpsAfter_spec_witness :
    sampleLeader.pending_operations.Pairwise (fun a b => a.index < b.index) ∧
    (sampleLeader.AbortOpsAfter 1).2.Pairwise (fun a b => b.index < a.index) :=
  ⟨by decide, (abortOpsAfter_spec sampleLeader 1 (by decide)).2.1⟩

end YBConsensus
